import Mathlib

/-!
# Verification of `script/puppeteer_scrape_sheep.js`

A shallow embedding of the sheep-metrics scraper script, together with
theorems settling the specification claims about it.

The script is a linear pipeline: load a previous JSON snapshot (if any),
drive a headless browser to a fixed URL, extract the rendered text of an
embedded frame, parse it into weekly rows, build a metrics object, compare
its serialization with the previous snapshot, and write the file only on a
difference.

Modelling conventions:
* Text is modelled as `String` / `List Char`; the line-splitting, trimming,
  digit-stripping and block extraction translate the JavaScript expressions
  at source lines 84-128.
* JavaScript `undefined` field reads are `Option.none`; calling `.replace`
  on `undefined` raises a `TypeError`, which is modelled as the parser
  returning `none` (the run dies with an unhandled rejection).
* `JSON.stringify` / `JSON.parse` are modelled on the JSON fragment the
  snapshot format uses (null, strings, objects).  The parser is total via a
  fuel argument (real engines likewise fail on absurdly deep nesting).
* The browser stages (navigation, frame lookup) have no data content; they
  enter the model as boolean success flags in the run environment, and the
  run result records whether `browser.close()` was reached.
-/

set_option maxHeartbeats 2000000
set_option maxRecDepth 100000

namespace SheepScrape

/-! ## Lines (source lines 84-98)

`allText.split("\n").map(l => l.trim()).filter(Boolean)` and the
`"Select Row"` marker count. -/

/-- The ASCII whitespace characters trimmed by JavaScript `String.trim`
(the scraped text contains no exotic Unicode whitespace). -/
def isTrimWs (c : Char) : Bool :=
  c = ' ' || c = '\t' || c = '\n' || c = '\r' || c = '\x0b' || c = '\x0c'

/-- `allText.split("\n")`: split a character list at every newline,
keeping empty pieces. -/
def splitNl : List Char → List (List Char)
  | [] => [[]]
  | '\n' :: rest => [] :: splitNl rest
  | c :: rest =>
    match splitNl rest with
    | [] => [[c]]
    | h :: t => (c :: h) :: t

/-- `l.trim()` on a character list. -/
def trimChars (cs : List Char) : List Char :=
  ((cs.dropWhile isTrimWs).reverse.dropWhile isTrimWs).reverse

/-- Source lines 84-87: split the extracted text into lines, trim each,
and drop the empty ones (`filter(Boolean)`). -/
def toLines (text : String) : List String :=
  ((splitNl text.data).map (fun cs => (⟨trimChars cs⟩ : String))).filter
    (fun s => s != "")

/-- Source line 97: `lines.filter(l => l === "Select Row").length`. -/
def selectRowCount (lines : List String) : Nat :=
  (lines.filter (fun l => l == "Select Row")).length

/-! ## Row parsing (source lines 104-128) -/

/-- `v.replace(/[^\d-]/g, "")`: remove every character that is not an
ASCII digit or a minus sign. -/
def stripNonDigit (s : String) : String :=
  ⟨s.data.filter (fun c => c.isDigit || c = '-')⟩

/-- One parsed table row (source lines 114-124).  `sheepweekindex` is
`block[1]` verbatim, hence possibly `undefined` (`none`); the remaining
fields come out of `.replace`, which forces them to be defined strings. -/
structure WeeklyRow where
  sheepweekindex : Option String
  total_head_inc_reoffers : String
  clearance_rate_mm : String
  amount_over_reserve : String
  arli_ckg_dw : String
  arl_change_sheepindex : String
  total_head_change_sheepindex : String
  clearance_rate_change_sheepindex : String
  vor_change_sheepindex : String
  deriving DecidableEq

/-- The row-object construction from one block (source lines 114-124).
JavaScript evaluates `block[k].replace(...)` for `k = 2..9`; when
`block[k]` is `undefined` (block shorter than `k+1` lines) this raises a
`TypeError`, modelled as `none`.  `block[10]` is never read. -/
def buildRow (block : List String) : Option WeeklyRow :=
  match block[2]?, block[3]?, block[4]?, block[5]?,
        block[6]?, block[7]?, block[8]?, block[9]? with
  | some b2, some b3, some b4, some b5, some b6, some b7, some b8, some b9 =>
    some { sheepweekindex := block[1]?
           total_head_inc_reoffers := stripNonDigit b2
           clearance_rate_mm := stripNonDigit b3
           amount_over_reserve := stripNonDigit b4
           arli_ckg_dw := stripNonDigit b5
           arl_change_sheepindex := stripNonDigit b6
           total_head_change_sheepindex := stripNonDigit b7
           clearance_rate_change_sheepindex := stripNonDigit b8
           vor_change_sheepindex := stripNonDigit b9 }
  | _, _, _, _, _, _, _, _ => none

/-- The `rows` loop (source lines 106-128): scan the lines in order; at
every line equal to `"Select Row"` take `lines.slice(i, i + 11)` and build
a row.  A `TypeError` inside any iteration aborts the whole run (`none`).
Markers may fall inside the 11-line window of an earlier marker; the loop
does not skip over blocks. -/
def parseRowsAux : List String → Option (List WeeklyRow)
  | [] => some []
  | l :: rest =>
    if l = "Select Row" then
      match buildRow ((l :: rest).take 11), parseRowsAux rest with
      | some r, some rs => some (r :: rs)
      | _, _ => none
    else parseRowsAux rest

/-- All rows parsed from the trimmed non-empty lines. -/
def parseRows (lines : List String) : Option (List WeeklyRow) :=
  parseRowsAux lines

/-! ## Metrics object (source lines 157-163) -/

/-- The root snapshot object.  `rows[k] || null` is `Option`. -/
structure Metrics where
  updated_at : String
  this_week : Option WeeklyRow
  last_week : Option WeeklyRow
  two_weeks_ago : Option WeeklyRow
  three_weeks_ago : Option WeeklyRow
  deriving DecidableEq

/-- Source lines 157-163: slots filled from `rows[0]`..`rows[3]` by parse
order; `new Date().toISOString()` enters as the opaque timestamp `ts`. -/
def buildMetrics (ts : String) (rows : List WeeklyRow) : Metrics :=
  { updated_at := ts
    this_week := rows[0]?
    last_week := rows[1]?
    two_weeks_ago := rows[2]?
    three_weeks_ago := rows[3]? }

/-- Source line 148: the non-fatal warning fires when the parsed row count
differs from the expected 4. -/
def warnsRowCount (rows : List WeeklyRow) : Bool :=
  rows.length != 4

/-! ## JSON values

The snapshot file only ever holds nulls, strings and objects, so the
`JSON.stringify` / `JSON.parse` model covers exactly that fragment. -/

/-- A JSON value of the fragment the snapshot format uses. -/
inductive JVal where
  | jnull : JVal
  | jstr : String → JVal
  | jobj : List (String × JVal) → JVal

/-- Lowercase hexadecimal digit character for `n < 16`. -/
def hexDig (n : Nat) : Char :=
  if n < 10 then Char.ofNat (48 + n) else Char.ofNat (87 + n)

/-- `JSON.stringify` escaping of one character (ECMA-262 `QuoteJSONString`):
quote and backslash get a backslash, the named control escapes are used
where they exist, other control characters become `\u00XX`. -/
def escChar (c : Char) : List Char :=
  if c = '"' then ['\\', '"']
  else if c = '\\' then ['\\', '\\']
  else if c = '\x08' then ['\\', 'b']
  else if c = '\x0c' then ['\\', 'f']
  else if c = '\n' then ['\\', 'n']
  else if c = '\r' then ['\\', 'r']
  else if c = '\t' then ['\\', 't']
  else if c.toNat < 32 then
    ['\\', 'u', '0', '0', hexDig (c.toNat / 16), hexDig (c.toNat % 16)]
  else [c]

/-- Escape a whole character list. -/
def escList : List Char → List Char
  | [] => []
  | c :: rest => escChar c ++ escList rest

/-- A JSON string literal: quote, escaped contents, quote. -/
def quoteL (s : List Char) : List Char :=
  '"' :: (escList s ++ ['"'])

mutual

/-- `JSON.stringify(v)` (compact form, used by the change detector at
source lines 169-172). -/
def printCL : JVal → List Char
  | .jnull => ['n', 'u', 'l', 'l']
  | .jstr s => quoteL s.data
  | .jobj ms => '\x7b' :: (printCMembers ms ++ ['\x7d'])

/-- Members of a compact object: `"key":value` joined by commas. -/
def printCMembers : List (String × JVal) → List Char
  | [] => []
  | [(k, v)] => quoteL k.data ++ ':' :: printCL v
  | (k, v) :: m :: ms =>
    quoteL k.data ++ ':' :: printCL v ++ ',' :: printCMembers (m :: ms)

end

mutual

/-- `JSON.stringify(v, null, 2)` (pretty form, used by the writer at
source lines 187-190).  `ind` is the indentation of the line on which the
value starts; members are indented two spaces further. -/
def printPL (ind : List Char) : JVal → List Char
  | .jnull => ['n', 'u', 'l', 'l']
  | .jstr s => quoteL s.data
  | .jobj [] => ['\x7b', '\x7d']
  | .jobj (m :: ms) =>
    '\x7b' :: '\n' ::
      (printPMembers (ind ++ [' ', ' ']) (m :: ms) ++ '\n' :: (ind ++ ['\x7d']))

/-- Members of a pretty object: each on its own indented line,
`"key": value`, joined by `,\n`. -/
def printPMembers (ind : List Char) : List (String × JVal) → List Char
  | [] => []
  | [(k, v)] => ind ++ (quoteL k.data ++ ':' :: ' ' :: printPL ind v)
  | (k, v) :: m :: ms =>
    ind ++
      (quoteL k.data ++ ':' :: ' ' :: printPL ind v ++
        ',' :: '\n' :: printPMembers ind (m :: ms))

end

/-- `JSON.stringify(v)`. -/
def stringifyCompact (v : JVal) : String := ⟨printCL v⟩

/-- `JSON.stringify(v, null, 2)`. -/
def stringifyPretty (v : JVal) : String := ⟨printPL [] v⟩

/-! ## JSON parsing (`JSON.parse`, source lines 23-24) -/

/-- JSON insignificant whitespace. -/
def isJsonWs (c : Char) : Bool :=
  c = ' ' || c = '\t' || c = '\n' || c = '\r'

/-- Drop leading JSON whitespace. -/
def skipWs : List Char → List Char
  | [] => []
  | c :: rest => if isJsonWs c then skipWs rest else c :: rest

/-- Value of one hexadecimal digit character. -/
def hexVal (c : Char) : Option Nat :=
  if '0' ≤ c && c ≤ '9' then some (c.toNat - 48)
  else if 'a' ≤ c && c ≤ 'f' then some (c.toNat - 87)
  else if 'A' ≤ c && c ≤ 'F' then some (c.toNat - 55)
  else none

/-- Parse the body of a JSON string literal after the opening quote:
returns the decoded characters and the remainder after the closing quote.
Unescaped control characters are a parse error, as in `JSON.parse`. -/
def parseStrBody : List Char → Option (List Char × List Char)
  | [] => none
  | c :: rest =>
    if c = '"' then some ([], rest)
    else if c = '\\' then
      match rest with
      | '"' :: r => (parseStrBody r).map (fun p => ('"' :: p.1, p.2))
      | '\\' :: r => (parseStrBody r).map (fun p => ('\\' :: p.1, p.2))
      | '/' :: r => (parseStrBody r).map (fun p => ('/' :: p.1, p.2))
      | 'b' :: r => (parseStrBody r).map (fun p => ('\x08' :: p.1, p.2))
      | 'f' :: r => (parseStrBody r).map (fun p => ('\x0c' :: p.1, p.2))
      | 'n' :: r => (parseStrBody r).map (fun p => ('\n' :: p.1, p.2))
      | 'r' :: r => (parseStrBody r).map (fun p => ('\r' :: p.1, p.2))
      | 't' :: r => (parseStrBody r).map (fun p => ('\t' :: p.1, p.2))
      | 'u' :: h1 :: h2 :: h3 :: h4 :: r =>
        match hexVal h1, hexVal h2, hexVal h3, hexVal h4 with
        | some a, some b, some c, some d =>
          (parseStrBody r).map
            (fun p => (Char.ofNat (((a * 16 + b) * 16 + c) * 16 + d) :: p.1, p.2))
        | _, _, _, _ => none
      | _ => none
    else if c.toNat < 32 then none
    else (parseStrBody rest).map (fun p => (c :: p.1, p.2))

/-- The recursive JSON parser, total via fuel (`true` mode parses one
value, `false` mode parses the member list of an object after its opening
brace, returning it as a `jobj`). -/
def parseF : Nat → Bool → List Char → Option (JVal × List Char)
  | 0, _, _ => none
  | Nat.succ f, true, l =>
    match skipWs l with
    | 'n' :: 'u' :: 'l' :: 'l' :: rest => some (.jnull, rest)
    | '"' :: rest => (parseStrBody rest).map (fun p => (.jstr ⟨p.1⟩, p.2))
    | '\x7b' :: rest =>
      match skipWs rest with
      | '\x7d' :: r2 => some (.jobj [], r2)
      | r2 => parseF f false r2
    | _ => none
  | Nat.succ f, false, l =>
    match skipWs l with
    | '"' :: rest =>
      match parseStrBody rest with
      | none => none
      | some (k, r1) =>
        match skipWs r1 with
        | ':' :: r2 =>
          match parseF f true r2 with
          | none => none
          | some (v, r3) =>
            match skipWs r3 with
            | ',' :: r4 =>
              match parseF f false r4 with
              | some (JVal.jobj ms, r5) => some (.jobj ((⟨k⟩, v) :: ms), r5)
              | _ => none
            | '\x7d' :: r4 => some (.jobj [(⟨k⟩, v)], r4)
            | _ => none
        | _ => none
    | _ => none

/-- `JSON.parse(s)` on the snapshot fragment: a single value with nothing
but whitespace after it. -/
def parseJson (s : String) : Option JVal :=
  match parseF 1000000 true s.data with
  | some (v, rest) => if skipWs rest = [] then some v else none
  | _ => none

/-! ## Snapshot serialization (source lines 157-163 as JSON data) -/

/-- The JSON object `JSON.stringify` sees for one row.  A JavaScript
property whose value is `undefined` is omitted from the output, hence the
`sheepweekindex` case split. -/
def rowMembers (r : WeeklyRow) : List (String × JVal) :=
  (match r.sheepweekindex with
   | some s => [("sheepweekindex", JVal.jstr s)]
   | none => []) ++
  [("total_head_inc_reoffers", .jstr r.total_head_inc_reoffers),
   ("clearance_rate_mm", .jstr r.clearance_rate_mm),
   ("amount_over_reserve", .jstr r.amount_over_reserve),
   ("arli_ckg_dw", .jstr r.arli_ckg_dw),
   ("arl_change_sheepindex", .jstr r.arl_change_sheepindex),
   ("total_head_change_sheepindex", .jstr r.total_head_change_sheepindex),
   ("clearance_rate_change_sheepindex", .jstr r.clearance_rate_change_sheepindex),
   ("vor_change_sheepindex", .jstr r.vor_change_sheepindex)]

/-- A snapshot slot as JSON: `null` or the row object. -/
def slotJson : Option WeeklyRow → JVal
  | none => .jnull
  | some r => .jobj (rowMembers r)

/-- The metrics object as the JSON value `JSON.stringify` serializes,
keys in insertion order (source lines 157-163). -/
def metricsToJson (m : Metrics) : JVal :=
  .jobj [("updated_at", .jstr m.updated_at),
         ("this_week", slotJson m.this_week),
         ("last_week", slotJson m.last_week),
         ("two_weeks_ago", slotJson m.two_weeks_ago),
         ("three_weeks_ago", slotJson m.three_weeks_ago)]

/-! ## The run (source lines 20-199) -/

/-- Source lines 20-28: read the snapshot file if it exists; a file that
`JSON.parse` rejects throws, killing the run before anything else. -/
def loadPreviousMetrics (file : Option String) : Except Unit (Option JVal) :=
  match file with
  | none => .ok none
  | some s =>
    match parseJson s with
    | some v => .ok (some v)
    | none => .error ()

/-- How one run ends. -/
inductive Outcome where
  | fatalLoad   -- `JSON.parse` threw on the previous-metrics file
  | fatalNav    -- `page.goto` navigation / idle timeout rejected
  | fatalFrame  -- `waitForSelector("#pbiTable")` timed out
  | fatalParse  -- `TypeError` in the rows loop (short block)
  | noRows      -- zero rows parsed: `process.exit(1)` (source lines 136-146)
  | success     -- the run reached its end (write or no-op)
  deriving DecidableEq

/-- The environment of one run: the snapshot file contents (if the file
exists), whether navigation and the frame lookup succeed, the text the
frame evaluates to, and the capture timestamp. -/
structure Env where
  file : Option String
  gotoOk : Bool
  frameFound : Bool
  text : String
  ts : String

/-- What one run did: how it ended, whether the browser was launched and
whether `browser.close()` ran, whether the file was written, and the file
contents afterwards. -/
structure RunResult where
  outcome : Outcome
  launched : Bool
  browserClosed : Bool
  wrote : Bool
  fileAfter : Option String

/-- The whole script, source lines 20-199, in source order: load previous
metrics, launch the browser, navigate, find the frame, extract and parse
the text, build the metrics object, compare serializations, write on a
difference.  There is no `try`/`finally`: a rejected promise or a
`TypeError` ends the process without reaching `browser.close()`. -/
def fullRun (env : Env) : RunResult :=
  match loadPreviousMetrics env.file with
  | .error _ => ⟨.fatalLoad, false, false, false, env.file⟩
  | .ok prev =>
    if env.gotoOk = false then ⟨.fatalNav, true, false, false, env.file⟩
    else if env.frameFound = false then ⟨.fatalFrame, true, false, false, env.file⟩
    else
      match parseRows (toLines env.text) with
      | none => ⟨.fatalParse, true, false, false, env.file⟩
      | some [] => ⟨.noRows, true, true, false, env.file⟩
      | some (r :: rs) =>
        let mj := metricsToJson (buildMetrics env.ts (r :: rs))
        match prev with
        | some p =>
          if stringifyCompact p = stringifyCompact mj then
            ⟨.success, true, true, false, env.file⟩
          else ⟨.success, true, true, true, some (stringifyPretty mj)⟩
        | none => ⟨.success, true, true, true, some (stringifyPretty mj)⟩

/-- The process exit code: 0 on success (write or no-op), 1 on
`process.exit(1)` for zero rows, and 1 for the unhandled-rejection paths
(Node's default exit code for an unhandled promise rejection). -/
def exitCode : Outcome → Nat
  | .success => 0
  | _ => 1

/-! ## Demonstration inputs

Concrete texts and rows used by witnesses and counterexamples. -/

/-- A well-formed block: the marker and ten field lines. -/
def demoBlock1 : String :=
  "Select Row\nW1\n1,234 head\n85%\n$1,200\n110.5\n+2.1\n-3\n1.5\n0.8\nextra"

/-- A second well-formed block. -/
def demoBlock2 : String :=
  "Select Row\nW2\n1\n2\n3\n4\n5\n6\n7\n8\n9"

/-- A rendered text with two well-formed blocks. -/
def demoText2 : String := demoBlock1 ++ "\n" ++ demoBlock2

/-- The row the parser extracts from `demoBlock1`. -/
def demoRow1 : WeeklyRow :=
  ⟨some "W1", "1234", "85", "1200", "1105", "21", "-3", "15", "08"⟩

/-- The row the parser extracts from `demoBlock2`. -/
def demoRow2 : WeeklyRow :=
  ⟨some "W2", "1", "2", "3", "4", "5", "6", "7", "8"⟩

/-! ## Lemmas about the row parser -/

/-- A prefix with no `"Select Row"` line contributes no rows. -/
theorem parseRowsAux_skip (xs : List String)
    (h : ∀ l ∈ xs, l ≠ "Select Row") (rest : List String) :
    parseRowsAux (xs ++ rest) = parseRowsAux rest := by
  induction xs with
  | nil => rfl
  | cons x t ih =>
    have hx : x ≠ "Select Row" := h x (by simp)
    simp only [List.cons_append, parseRowsAux, if_neg hx]
    exact ih fun l hl => h l (by simp [hl])

/-- A block of fewer than 10 lines kills the row construction:
`block[9].replace` (or an earlier one) is a `TypeError`. -/
theorem buildRow_none_of_short (b : List String) (h : b.length < 10) :
    buildRow b = none := by
  have h9 : b[9]? = none := List.getElem?_eq_none_iff.mpr (by omega)
  cases h2 : b[2]? <;> cases h3 : b[3]? <;> cases h4 : b[4]? <;>
    cases h5 : b[5]? <;> cases h6 : b[6]? <;> cases h7 : b[7]? <;>
    cases h8 : b[8]? <;>
    simp [buildRow, h2, h3, h4, h5, h6, h7, h8, h9]

/-- A block of at least 10 lines yields a row (only offsets 0-9 are read;
the 11th line of the slice is unused). -/
theorem buildRow_some_of_len (b : List String) (h : 10 ≤ b.length) :
    ∃ r, buildRow b = some r := by
  have hx : ∀ k, k < b.length → ∃ x, b[k]? = some x :=
    fun k hk => ⟨b[k], List.getElem?_eq_getElem hk⟩
  obtain ⟨b2, h2⟩ := hx 2 (by omega)
  obtain ⟨b3, h3⟩ := hx 3 (by omega)
  obtain ⟨b4, h4⟩ := hx 4 (by omega)
  obtain ⟨b5, h5⟩ := hx 5 (by omega)
  obtain ⟨b6, h6⟩ := hx 6 (by omega)
  obtain ⟨b7, h7⟩ := hx 7 (by omega)
  obtain ⟨b8, h8⟩ := hx 8 (by omega)
  obtain ⟨b9, h9⟩ := hx 9 (by omega)
  exact ⟨{ sheepweekindex := b[1]?
           total_head_inc_reoffers := stripNonDigit b2
           clearance_rate_mm := stripNonDigit b3
           amount_over_reserve := stripNonDigit b4
           arli_ckg_dw := stripNonDigit b5
           arl_change_sheepindex := stripNonDigit b6
           total_head_change_sheepindex := stripNonDigit b7
           clearance_rate_change_sheepindex := stripNonDigit b8
           vor_change_sheepindex := stripNonDigit b9 },
    by simp only [buildRow, h2, h3, h4, h5, h6, h7, h8, h9]⟩

/-- One marker step of the rows loop: a marker followed by exactly ten
marker-free lines contributes its row and hands the rest on. -/
theorem parseRowsAux_marker_step (t : List String) (ht : t.length = 10)
    (hm : ∀ l ∈ t, l ≠ "Select Row") (rest : List String) :
    parseRowsAux ("Select Row" :: (t ++ rest)) =
      match buildRow ("Select Row" :: t), parseRowsAux rest with
      | some r, some rs => some (r :: rs)
      | _, _ => none := by
  have htake : ("Select Row" :: (t ++ rest)).take 11 = "Select Row" :: t := by
    rw [List.take_succ_cons]
    have := List.take_left t rest
    rw [ht] at this
    rw [this]
  simp only [parseRowsAux, htake, parseRowsAux_skip t hm rest]
  simp

/-- Rows are produced one per marker, in order, whenever every marker has
at least 9 further lines after it (the loop reads offsets 1-9). -/
theorem parseRowsAux_count (lines : List String)
    (h : ∀ i, i < lines.length → lines[i]? = some "Select Row" →
      i + 10 < lines.length) :
    ∃ rs, parseRowsAux lines = some rs ∧ rs.length = selectRowCount lines := by
  induction lines with
  | nil => exact ⟨[], rfl, rfl⟩
  | cons l rest ih =>
    have hrest : ∀ i, i < rest.length → rest[i]? = some "Select Row" →
        i + 10 < rest.length := by
      intro i hi hsel
      have h' := h (i + 1) (by simp only [List.length_cons]; omega)
        (by rw [List.getElem?_cons_succ]; exact hsel)
      simp only [List.length_cons] at h'
      omega
    obtain ⟨rs, hrs, hlen⟩ := ih hrest
    by_cases hl : l = "Select Row"
    · subst hl
      have h0 := h 0 (by simp) (by simp)
      have hlen10 : 10 ≤ rest.length := by
        simp only [List.length_cons] at h0; omega
      have hblen : 10 ≤ (("Select Row" :: rest).take 11).length := by
        rw [List.take_succ_cons, List.length_cons, List.length_take]
        omega
      obtain ⟨r, hr⟩ := buildRow_some_of_len _ hblen
      refine ⟨r :: rs, ?_, ?_⟩
      · simp only [parseRowsAux, hr, hrs]
        simp
      · simp only [selectRowCount, List.filter_cons] at hlen ⊢
        simp only [List.length_cons, hlen]
        simp
    · refine ⟨rs, ?_, ?_⟩
      · simp only [parseRowsAux, if_neg hl, hrs]
      · rw [hlen]
        simp only [selectRowCount, List.filter_cons]
        have : (l == "Select Row") = false := by
          simp [hl]
        rw [this]
        simp

/-! ## Lemmas about JSON whitespace and string escaping -/

/-- A run of JSON whitespace in front of the input is skipped. -/
theorem skipWs_append (a : List Char) (ha : ∀ c ∈ a, isJsonWs c = true)
    (l : List Char) : skipWs (a ++ l) = skipWs l := by
  induction a with
  | nil => rfl
  | cons c t ih =>
    have hc : isJsonWs c = true := ha c (by simp)
    simp only [List.cons_append, skipWs, hc, if_true]
    exact ih fun x hx => ha x (by simp [hx])

/-- `skipWs` leaves an input headed by a non-whitespace character alone. -/
theorem skipWs_cons (c : Char) (hc : isJsonWs c = false) (l : List Char) :
    skipWs (c :: l) = c :: l := by
  simp [skipWs, hc]

/-- `hexVal` inverts `hexDig` on one digit. -/
theorem hexVal_hexDig : ∀ n, n < 16 → hexVal (hexDig n) = some n := by decide

/-- Parsing an escaped string body recovers the original characters and
stops exactly at the closing quote. -/
theorem parseStrBody_esc (s : List Char) (rest : List Char) :
    parseStrBody (escList s ++ '"' :: rest) = some (s, rest) := by
  induction s with
  | nil =>
    simp only [escList, List.nil_append]
    rw [parseStrBody.eq_def]
    simp
  | cons c t ih =>
    simp only [escList, List.append_assoc]
    simp only [escChar]
    split_ifs with h1 h2 h3 h4 h5 h6 h7 h8
    · subst h1; simp [parseStrBody, ih]
    · subst h2; simp [parseStrBody, ih]
    · subst h3; simp [parseStrBody, ih]
    · subst h4; simp [parseStrBody, ih]
    · subst h5; simp [parseStrBody, ih]
    · subst h6; simp [parseStrBody, ih]
    · subst h7; simp [parseStrBody, ih]
    · have e1 : hexVal (hexDig (c.toNat / 16)) = some (c.toNat / 16) :=
        hexVal_hexDig _ (by omega)
      have e2 : hexVal (hexDig (c.toNat % 16)) = some (c.toNat % 16) :=
        hexVal_hexDig _ (Nat.mod_lt _ (by omega))
      have harith : c.toNat / 16 * 16 + c.toNat % 16 = c.toNat := by omega
      have harith' : ((0 * 16 + 0) * 16 + c.toNat / 16) * 16 + c.toNat % 16
          = c.toNat := by omega
      simp [parseStrBody, e1, e2, harith, harith', Char.ofNat_toNat, ih,
        show hexVal '0' = some 0 from rfl]
    · rw [List.cons_append, parseStrBody.eq_def]
      simp only [List.nil_append]
      rw [if_neg h1, if_neg h2, if_neg h8, ih]
      rfl

/-! ## Lemmas about the JSON value parser -/

/-- `parseF` ignores leading whitespace. -/
theorem parseF_ws (f : Nat) (mode : Bool) (a l : List Char)
    (ha : ∀ c ∈ a, isJsonWs c = true) :
    parseF f mode (a ++ l) = parseF f mode l := by
  cases f with
  | zero => rfl
  | succ g => cases mode <;> simp only [parseF, skipWs_append a ha l]

/-- A rendered `null` parses. -/
theorem parseF_null (f : Nat) (rest : List Char) :
    parseF (f + 1) true ('n' :: 'u' :: 'l' :: 'l' :: rest) =
      some (.jnull, rest) := by
  simp only [parseF]
  rw [skipWs_cons 'n' (by decide)]
  rfl

/-- A rendered string literal parses back to the same string. -/
theorem parseF_jstr (f : Nat) (s : String) (rest : List Char) :
    parseF (f + 1) true (quoteL s.data ++ rest) = some (.jstr s, rest) := by
  simp only [quoteL, List.cons_append, List.append_assoc,
    List.singleton_append]
  simp only [parseF]
  rw [skipWs_cons '"' (by decide)]
  simp only [parseStrBody_esc, List.nil_append, Option.map_some]
  rfl

/-- `skipWs` is idempotent. -/
theorem skipWs_idem (l : List Char) : skipWs (skipWs l) = skipWs l := by
  induction l with
  | nil => rfl
  | cons c t ih =>
    by_cases hc : isJsonWs c = true
    · simp only [skipWs, hc, if_true, ih]
    · have hc' : isJsonWs c = false := by
        simpa using hc
      rw [skipWs_cons c hc', skipWs_cons c hc']

/-- `parseF` gives the same answer on an input with its leading whitespace
already removed. -/
theorem parseF_skipWs (f : Nat) (mode : Bool) (l : List Char) :
    parseF f mode (skipWs l) = parseF f mode l := by
  cases f with
  | zero => rfl
  | succ g => cases mode <;> simp only [parseF, skipWs_idem]

/-- The printed members of a nonempty object start (after whitespace) with
the opening quote of the first key. -/
theorem skipWs_members (ind : List Char)
    (hind : ∀ c ∈ ind, isJsonWs c = true) (k : String) (v : JVal)
    (tl : List (String × JVal)) (y : List Char) :
    ∃ t, skipWs (printPMembers ind ((k, v) :: tl) ++ y) = '"' :: t := by
  cases tl with
  | nil =>
    exact ⟨_, by
      simp only [printPMembers, quoteL, List.append_assoc, List.cons_append]
      rw [skipWs_append ind hind, skipWs_cons '"' (by decide)]⟩
  | cons kv2 tl2 =>
    exact ⟨_, by
      simp only [printPMembers, quoteL, List.append_assoc, List.cons_append]
      rw [skipWs_append ind hind, skipWs_cons '"' (by decide)]⟩

/-- Parsing the pretty-printed members of a nonempty object collects them
in order, consumes the following whitespace and closing brace, and returns
the remainder; each member's value must parse with fuel margin `M`. -/
theorem parseF_members (M : Nat) (ind : List Char)
    (hind : ∀ c ∈ ind, isJsonWs c = true) :
    ∀ (ms : List (String × JVal)),
      (∀ kv ∈ ms, ∀ (g : Nat) (rest' : List Char),
        parseF (g + M) true (printPL ind kv.2 ++ rest') = some (kv.2, rest')) →
      ms ≠ [] →
      ∀ (n : Nat) (sep rest : List Char),
        (∀ c ∈ sep, isJsonWs c = true) →
        parseF (n + (M + 1) * ms.length) false
            (printPMembers ind ms ++ (sep ++ '\x7d' :: rest)) =
          some (.jobj ms, rest) := by
  intro ms
  induction ms with
  | nil => intro _ hne; exact absurd rfl hne
  | cons kv tl ih =>
    intro hv _ n sep rest hsep
    obtain ⟨k, v⟩ := kv
    have hvk := hv (k, v) (by simp)
    cases tl with
    | nil =>
      have hf : n + (M + 1) * ([(k, v)] : List (String × JVal)).length
          = (n + M) + 1 := by
        simp only [List.length_singleton]; ring
      rw [hf]
      simp only [printPMembers, quoteL, List.append_assoc, List.cons_append,
        List.singleton_append, List.nil_append]
      simp only [parseF]
      rw [skipWs_append ind hind, skipWs_cons '"' (by decide)]
      simp only []
      rw [parseStrBody_esc]
      simp only []
      rw [skipWs_cons ':' (by decide)]
      simp only []
      rw [show (' ' :: (printPL ind v ++ (sep ++ '\x7d' :: rest)))
          = [' '] ++ (printPL ind v ++ (sep ++ '\x7d' :: rest)) from rfl]
      rw [parseF_ws _ true [' '] _ (by decide)]
      rw [hvk n (sep ++ '\x7d' :: rest)]
      simp only []
      rw [skipWs_append sep hsep, skipWs_cons '\x7d' (by decide)]
      simp only []
    | cons kv2 tl2 =>
      have hf : n + (M + 1) * ((k, v) :: kv2 :: tl2).length
          = (n + (M + 1) * (kv2 :: tl2).length + M) + 1 := by
        simp only [List.length_cons]; ring
      rw [hf]
      simp only [printPMembers, quoteL, List.append_assoc, List.cons_append,
        List.singleton_append, List.nil_append]
      simp only [parseF]
      rw [skipWs_append ind hind, skipWs_cons '"' (by decide)]
      simp only []
      rw [parseStrBody_esc]
      simp only []
      rw [skipWs_cons ':' (by decide)]
      simp only []
      rw [show (' ' :: (printPL ind v ++ (',' :: '\n' ::
            (printPMembers ind (kv2 :: tl2) ++ (sep ++ '\x7d' :: rest)))))
          = [' '] ++ (printPL ind v ++ (',' :: '\n' ::
            (printPMembers ind (kv2 :: tl2) ++ (sep ++ '\x7d' :: rest))))
          from rfl]
      rw [parseF_ws _ true [' '] _ (by decide)]
      rw [hvk (n + (M + 1) * (kv2 :: tl2).length)
        (',' :: '\n' :: (printPMembers ind (kv2 :: tl2) ++ (sep ++ '\x7d' :: rest)))]
      simp only []
      rw [skipWs_cons ',' (by decide)]
      simp only []
      rw [show ('\n' :: (printPMembers ind (kv2 :: tl2) ++ (sep ++ '\x7d' :: rest)))
          = ['\n'] ++ (printPMembers ind (kv2 :: tl2) ++ (sep ++ '\x7d' :: rest))
          from rfl]
      rw [parseF_ws _ false ['\n'] _ (by decide)]
      have hf2 : n + (M + 1) * ((kv2 :: tl2) : List (String × JVal)).length + M
          = (n + M) + (M + 1) * ((kv2 :: tl2) : List (String × JVal)).length := by
        ring
      rw [hf2]
      rw [ih (fun kv' hkv' => hv kv' (by simp [hkv'])) (by simp)
        (n + M) sep rest hsep]

/-- Parsing a pretty-printed nonempty object recovers it, given a fuel
margin of `M` for the members' values (printed two spaces deeper). -/
theorem parseF_obj (M : Nat) (ind : List Char)
    (hind : ∀ c ∈ ind, isJsonWs c = true) (ms : List (String × JVal))
    (hv : ∀ kv ∈ ms, ∀ (g : Nat) (rest' : List Char),
      parseF (g + M) true (printPL (ind ++ [' ', ' ']) kv.2 ++ rest')
        = some (kv.2, rest'))
    (hne : ms ≠ []) (n : Nat) (rest : List Char) :
    parseF (n + (M + 1) * ms.length + 2) true
        (printPL ind (.jobj ms) ++ rest) = some (.jobj ms, rest) := by
  cases ms with
  | nil => exact absurd rfl hne
  | cons kv tl =>
    obtain ⟨k, v⟩ := kv
    have hind2 : ∀ c ∈ ind ++ [' ', ' '], isJsonWs c = true := by
      intro c hc
      rcases List.mem_append.mp hc with h | h
      · exact hind c h
      · rcases List.mem_cons.mp h with rfl | h2
        · decide
        · rcases List.mem_cons.mp h2 with rfl | h3
          · decide
          · exact absurd h3 (List.not_mem_nil c)
    have hf : n + (M + 1) * ((k, v) :: tl).length + 2
        = ((n + 1) + (M + 1) * ((k, v) :: tl).length) + 1 := by ring
    rw [hf]
    simp only [printPL, List.append_assoc, List.cons_append,
      List.singleton_append, List.nil_append]
    simp only [parseF]
    rw [skipWs_cons '\x7b' (by decide)]
    simp only []
    obtain ⟨t, ht⟩ := skipWs_members (ind ++ [' ', ' ']) hind2 k v tl
      ('\n' :: (ind ++ '\x7d' :: rest))
    have hsk : skipWs ('\n' :: (printPMembers (ind ++ [' ', ' ']) ((k, v) :: tl)
        ++ ('\n' :: (ind ++ '\x7d' :: rest)))) = '"' :: t := by
      rw [show ('\n' :: (printPMembers (ind ++ [' ', ' ']) ((k, v) :: tl)
            ++ ('\n' :: (ind ++ '\x7d' :: rest))))
          = ['\n'] ++ (printPMembers (ind ++ [' ', ' ']) ((k, v) :: tl)
            ++ ('\n' :: (ind ++ '\x7d' :: rest))) from rfl]
      rw [skipWs_append ['\n'] (by decide), ht]
    rw [hsk]
    split
    · rename_i heq
      simp at heq
    · show parseF ((n + 1) + (M + 1) * (((k, v) :: tl) : List (String × JVal)).length)
          false ('"' :: t) = some (JVal.jobj ((k, v) :: tl), rest)
      rw [← ht, parseF_skipWs]
      rw [show ('\n' :: (ind ++ '\x7d' :: rest))
          = (('\n' :: ind) ++ ('\x7d' :: rest)) from rfl]
      have hsep : ∀ c ∈ '\n' :: ind, isJsonWs c = true := by
        intro c hc
        rcases List.mem_cons.mp hc with rfl | h
        · decide
        · exact hind c h
      rw [parseF_members M (ind ++ [' ', ' ']) hind2 ((k, v) :: tl) hv (by simp)
        (n + 1) ('\n' :: ind) rest hsep]

/-- Every member value of a row object is a string literal that parses
with a fuel margin of 20. -/
theorem rowMembers_hv (r : WeeklyRow) (ind : List Char) :
    ∀ kv ∈ rowMembers r, ∀ (g : Nat) (rest' : List Char),
      parseF (g + 20) true (printPL ind kv.2 ++ rest') = some (kv.2, rest') := by
  intro kv hkv g rest'
  have hstr : ∃ s, kv.2 = JVal.jstr s := by
    cases h : r.sheepweekindex with
    | none =>
      simp only [rowMembers, h, List.nil_append, List.mem_cons,
        List.not_mem_nil, or_false] at hkv
      rcases hkv with rfl | rfl | rfl | rfl | rfl | rfl | rfl | rfl <;>
        exact ⟨_, rfl⟩
    | some s =>
      simp only [rowMembers, h, List.singleton_append, List.mem_cons,
        List.not_mem_nil, or_false] at hkv
      rcases hkv with rfl | rfl | rfl | rfl | rfl | rfl | rfl | rfl | rfl <;>
        exact ⟨_, rfl⟩
  obtain ⟨s, hs⟩ := hstr
  rw [hs]
  show parseF ((g + 19) + 1) true (printPL ind (JVal.jstr s) ++ rest')
      = some (JVal.jstr s, rest')
  simp only [printPL]
  exact parseF_jstr (g + 19) s rest'

/-- The row object has 8 or 9 members and is never empty. -/
theorem rowMembers_ne_nil (r : WeeklyRow) : rowMembers r ≠ [] := by
  cases h : r.sheepweekindex <;> simp [rowMembers, h]

/-- A pretty-printed snapshot slot (null or a row object) parses back to
itself with a fuel margin of 200. -/
theorem parseF_slot (g : Nat) (ind : List Char)
    (hind : ∀ c ∈ ind, isJsonWs c = true) (o : Option WeeklyRow)
    (rest : List Char) :
    parseF (g + 200) true (printPL ind (slotJson o) ++ rest)
      = some (slotJson o, rest) := by
  cases o with
  | none =>
    show parseF ((g + 199) + 1) true (printPL ind (slotJson none) ++ rest) = _
    simp only [slotJson, printPL, List.cons_append, List.nil_append]
    exact parseF_null (g + 199) rest
  | some r =>
    simp only [slotJson]
    cases h : r.sheepweekindex with
    | none =>
      have hlen : (rowMembers r).length = 8 := by
        simp [rowMembers, h]
      have hobj := parseF_obj 20 ind hind (rowMembers r)
        (rowMembers_hv r (ind ++ [' ', ' '])) (rowMembers_ne_nil r) (g + 30) rest
      rw [hlen] at hobj
      exact hobj
    | some s =>
      have hlen : (rowMembers r).length = 9 := by
        simp [rowMembers, h]
      have hobj := parseF_obj 20 ind hind (rowMembers r)
        (rowMembers_hv r (ind ++ [' ', ' '])) (rowMembers_ne_nil r) (g + 9) rest
      rw [hlen] at hobj
      exact hobj

/-- The pretty-printed snapshot object parses back to itself. -/
theorem parseF_metrics (n : Nat) (m : Metrics) (rest : List Char) :
    parseF (n + 1007) true (printPL [] (metricsToJson m) ++ rest)
      = some (metricsToJson m, rest) := by
  have hv : ∀ kv ∈ [("updated_at", JVal.jstr m.updated_at),
      ("this_week", slotJson m.this_week),
      ("last_week", slotJson m.last_week),
      ("two_weeks_ago", slotJson m.two_weeks_ago),
      ("three_weeks_ago", slotJson m.three_weeks_ago)],
      ∀ (g : Nat) (rest' : List Char),
        parseF (g + 200) true (printPL ([] ++ [' ', ' ']) kv.2 ++ rest')
          = some (kv.2, rest') := by
    intro kv hkv g rest'
    simp only [List.mem_cons, List.not_mem_nil, or_false] at hkv
    rcases hkv with rfl | rfl | rfl | rfl | rfl
    · show parseF ((g + 199) + 1) true _ = _
      simp only [printPL]
      exact parseF_jstr (g + 199) m.updated_at rest'
    · exact parseF_slot g _ (by decide) m.this_week rest'
    · exact parseF_slot g _ (by decide) m.last_week rest'
    · exact parseF_slot g _ (by decide) m.two_weeks_ago rest'
    · exact parseF_slot g _ (by decide) m.three_weeks_ago rest'
  have h := parseF_obj 200 [] (by simp) _ hv (by simp) (n + 0) rest
  simpa only [metricsToJson, List.length_cons, List.length_nil] using h

/-- Round trip of the writer and the loader: the pretty-printed snapshot
JSON parses back to exactly the same value. -/
theorem parseJson_stringifyPretty (m : Metrics) :
    parseJson (stringifyPretty (metricsToJson m)) = some (metricsToJson m) := by
  show parseJson ⟨printPL [] (metricsToJson m)⟩ = some (metricsToJson m)
  have h := parseF_metrics 998993 m []
  rw [List.append_nil] at h
  show (match parseF 1000000 true (printPL [] (metricsToJson m)) with
    | some (v, rest) => if skipWs rest = [] then some v else none
    | _ => none) = some (metricsToJson m)
  rw [show (1000000 : Nat) = 998993 + 1007 by norm_num, h]
  rfl

/-- A marker with fewer than 10 lines from it to the end of the input
(marker included) kills the whole parse. -/
theorem parseRowsAux_short_marker :
    ∀ (lines : List String) (i : Nat), lines[i]? = some "Select Row" →
      lines.length < i + 10 → parseRowsAux lines = none := by
  intro lines
  induction lines with
  | nil => intro i hi _; simp at hi
  | cons l rest ih =>
    intro i hi hlen
    cases i with
    | zero =>
      rw [List.getElem?_cons_zero, Option.some_inj] at hi
      subst hi
      have hshort : ((("Select Row" : String) :: rest).take 11).length < 10 := by
        rw [List.take_of_length_le (by simp only [List.length_cons] at hlen ⊢; omega)]
        simpa using hlen
      have hb := buildRow_none_of_short _ hshort
      simp only [parseRowsAux, hb]
      simp
    | succ j =>
      rw [List.getElem?_cons_succ] at hi
      have hlen' : rest.length < j + 10 := by
        simp only [List.length_cons] at hlen; omega
      have hrest := ih j hi hlen'
      by_cases hl : l = "Select Row"
      · cases hb : buildRow ((l :: rest).take 11) <;>
          simp [parseRowsAux, hl, hb, hrest]
      · simp [parseRowsAux, hl, hrest]

/-! ## Claim theorems -/

/-- C2: for every parsed block, offset 1 is stored verbatim as the week
identifier and offsets 2-9 are stored with every character that is not an
ASCII digit or a minus sign removed; `"1,234 head"` becomes `"1234"`,
`"-5%"` becomes `"-5"`, and `"110.5"` becomes `"1105"`. -/
theorem c2_field_stripping :
    (∀ b0 b1 b2 b3 b4 b5 b6 b7 b8 b9 b10 : String,
      buildRow [b0, b1, b2, b3, b4, b5, b6, b7, b8, b9, b10] =
        some { sheepweekindex := some b1
               total_head_inc_reoffers := stripNonDigit b2
               clearance_rate_mm := stripNonDigit b3
               amount_over_reserve := stripNonDigit b4
               arli_ckg_dw := stripNonDigit b5
               arl_change_sheepindex := stripNonDigit b6
               total_head_change_sheepindex := stripNonDigit b7
               clearance_rate_change_sheepindex := stripNonDigit b8
               vor_change_sheepindex := stripNonDigit b9 }) ∧
    stripNonDigit "1,234 head" = "1234" ∧
    stripNonDigit "-5%" = "-5" ∧
    stripNonDigit "110.5" = "1105" :=
  ⟨fun _ _ _ _ _ _ _ _ _ _ _ => rfl, rfl, rfl, rfl⟩

/-- C3: an input of exactly 4 well-formed 11-line blocks parses to exactly
4 rows, assigned strictly in parse order to the four snapshot slots. -/
theorem c3_four_blocks (t1 t2 t3 t4 : List String) (ts : String)
    (h1 : t1.length = 10) (hm1 : ∀ l ∈ t1, l ≠ "Select Row")
    (h2 : t2.length = 10) (hm2 : ∀ l ∈ t2, l ≠ "Select Row")
    (h3 : t3.length = 10) (hm3 : ∀ l ∈ t3, l ≠ "Select Row")
    (h4 : t4.length = 10) (hm4 : ∀ l ∈ t4, l ≠ "Select Row") :
    ∃ r1 r2 r3 r4,
      parseRows (("Select Row" :: t1) ++ ("Select Row" :: t2) ++
          ("Select Row" :: t3) ++ ("Select Row" :: t4)) =
        some [r1, r2, r3, r4] ∧
      buildMetrics ts [r1, r2, r3, r4] =
        { updated_at := ts, this_week := some r1, last_week := some r2,
          two_weeks_ago := some r3, three_weeks_ago := some r4 } := by
  obtain ⟨r1, hr1⟩ := buildRow_some_of_len ("Select Row" :: t1) (by simp [h1])
  obtain ⟨r2, hr2⟩ := buildRow_some_of_len ("Select Row" :: t2) (by simp [h2])
  obtain ⟨r3, hr3⟩ := buildRow_some_of_len ("Select Row" :: t3) (by simp [h3])
  obtain ⟨r4, hr4⟩ := buildRow_some_of_len ("Select Row" :: t4) (by simp [h4])
  have p4 : parseRowsAux ("Select Row" :: t4) = some [r4] := by
    have := parseRowsAux_marker_step t4 h4 hm4 []
    rw [List.append_nil] at this
    rw [this, hr4]
    rfl
  have p3 : parseRowsAux ("Select Row" :: (t3 ++ ("Select Row" :: t4)))
      = some [r3, r4] := by
    rw [parseRowsAux_marker_step t3 h3 hm3 _, hr3, p4]
  have p2 : parseRowsAux ("Select Row" :: (t2 ++
      ("Select Row" :: (t3 ++ ("Select Row" :: t4))))) = some [r2, r3, r4] := by
    rw [parseRowsAux_marker_step t2 h2 hm2 _, hr2, p3]
  have p1 : parseRowsAux ("Select Row" :: (t1 ++
      ("Select Row" :: (t2 ++ ("Select Row" :: (t3 ++ ("Select Row" :: t4)))))))
      = some [r1, r2, r3, r4] := by
    rw [parseRowsAux_marker_step t1 h1 hm1 _, hr1, p2]
  refine ⟨r1, r2, r3, r4, ?_, rfl⟩
  show parseRowsAux _ = _
  simp only [List.cons_append, List.append_assoc]
  exact p1

/-- C3 witness: four concrete 11-line blocks parse to four rows filling
the four slots in order. -/
theorem c3_witness :
    ∃ r1 r2 r3 r4,
      parseRows (("Select Row" :: ["W1", "1", "2", "3", "4", "5", "6", "7", "8", "9"]) ++
          ("Select Row" :: ["W2", "1", "2", "3", "4", "5", "6", "7", "8", "9"]) ++
          ("Select Row" :: ["W3", "1", "2", "3", "4", "5", "6", "7", "8", "9"]) ++
          ("Select Row" :: ["W4", "1", "2", "3", "4", "5", "6", "7", "8", "9"])) =
        some [r1, r2, r3, r4] ∧
      buildMetrics "T" [r1, r2, r3, r4] =
        { updated_at := "T", this_week := some r1, last_week := some r2,
          two_weeks_ago := some r3, three_weeks_ago := some r4 } :=
  c3_four_blocks ["W1", "1", "2", "3", "4", "5", "6", "7", "8", "9"]
    ["W2", "1", "2", "3", "4", "5", "6", "7", "8", "9"]
    ["W3", "1", "2", "3", "4", "5", "6", "7", "8", "9"]
    ["W4", "1", "2", "3", "4", "5", "6", "7", "8", "9"] "T"
    rfl (by decide) rfl (by decide) rfl (by decide) rfl (by decide)

/-- C10: on any trimmed, non-empty line sequence in which every
`"Select Row"` line is followed by at least 10 further lines, the parser
produces exactly one record per marker, even when markers overlap a
preceding marker's 11-line window. -/
theorem c10_one_record_per_marker (lines : List String)
    (_htrim : ∀ l ∈ lines, trimChars l.data = l.data ∧ l ≠ "")
    (h : ∀ i, i < lines.length → lines[i]? = some "Select Row" →
      i + 10 < lines.length) :
    ∃ rs, parseRows lines = some rs ∧ rs.length = selectRowCount lines :=
  parseRowsAux_count lines h

/-- C10 witness: two overlapping blocks (the second marker sits inside the
first marker's 11-line window) still yield one record per marker. -/
theorem c10_witness :
    ∃ rs, parseRows ["Select Row", "a", "b", "c", "d", "Select Row",
        "e", "f", "g", "h", "i", "j", "k", "l", "m", "n"] = some rs ∧
      rs.length = selectRowCount ["Select Row", "a", "b", "c", "d",
        "Select Row", "e", "f", "g", "h", "i", "j", "k", "l", "m", "n"] :=
  c10_one_record_per_marker _ (by decide) (by decide)

/-- C5 counterexample: a marker with fewer than 11 lines remaining does
not produce a record with undefined trailing fields; the run fails at that
point (a `TypeError` on an undefined field), producing nothing. -/
theorem c5_counterexample :
    parseRows ["Select Row"] = none ∧
    (fullRun ⟨none, true, true, "Select Row", "T"⟩).outcome =
      Outcome.fatalParse :=
  ⟨rfl, rfl⟩

/-- C5 amended: a marker with exactly 10 lines in its slice still yields a
complete record (the 11th slice line is never read), but a marker with
fewer than 10 lines kills the run at that point with a `TypeError`: no
record is produced. -/
theorem c5_short_block (b : List String) (lines : List String) (i : Nat) :
    (b.length < 10 → buildRow b = none) ∧
    (b.length = 10 → ∃ r, buildRow b = some r) ∧
    (lines[i]? = some "Select Row" → lines.length < i + 10 →
      parseRows lines = none) :=
  ⟨buildRow_none_of_short b,
   fun h => buildRow_some_of_len b (by omega),
   fun hi hlen => parseRowsAux_short_marker lines i hi hlen⟩

/-- C5 witness: a 9-line block crashes, a 10-line block parses, and a
trailing marker poisons the whole parse. -/
theorem c5_witness :
    (buildRow ["Select Row", "w", "1", "2", "3", "4", "5", "6", "7"] = none) ∧
    (∃ r, buildRow ["Select Row", "w", "1", "2", "3", "4", "5", "6", "7", "8"]
      = some r) ∧
    parseRows ["x", "Select Row", "y"] = none :=
  ⟨(c5_short_block ["Select Row", "w", "1", "2", "3", "4", "5", "6", "7"]
      [] 0).1 (by decide),
   (c5_short_block ["Select Row", "w", "1", "2", "3", "4", "5", "6", "7", "8"]
      [] 0).2.1 (by decide),
   (c5_short_block [] ["x", "Select Row", "y"] 1).2.2 (by decide) (by decide)⟩

/-- C4: an input text with zero `"Select Row"` lines makes the run fatal -
no file write, exit code 1 - and every run that reaches its end
successfully (write or no-op) exits 0. -/
theorem c4_zero_markers_fatal :
    (∀ env : Env, selectRowCount (toLines env.text) = 0 →
      (fullRun env).wrote = false ∧ exitCode (fullRun env).outcome = 1 ∧
        (fullRun env).fileAfter = env.file) ∧
    (∀ env : Env, (fullRun env).outcome = Outcome.success →
      exitCode (fullRun env).outcome = 0) := by
  constructor
  · intro env h0
    have hall : ∀ l ∈ toLines env.text, l ≠ "Select Row" := by
      have hnil : (toLines env.text).filter (fun l => l == "Select Row") = [] :=
        List.length_eq_zero.mp h0
      intro l hl hsel
      have := List.filter_eq_nil_iff.mp hnil l hl
      simp [hsel] at this
    have hparse : parseRows (toLines env.text) = some [] := by
      have := parseRowsAux_skip (toLines env.text) hall []
      rw [List.append_nil] at this
      rw [parseRows, this]
      rfl
    simp only [fullRun]
    split
    · exact ⟨rfl, rfl, rfl⟩
    · split_ifs
      · exact ⟨rfl, rfl, rfl⟩
      · exact ⟨rfl, rfl, rfl⟩
      · rw [hparse]
        exact ⟨rfl, rfl, rfl⟩
  · intro env h
    rw [h]
    rfl

/-- C4 witness: a markerless text exits 1 without writing; a 2-block text
on a fresh state ends in success with exit code 0. -/
theorem c4_witness :
    ((fullRun ⟨none, true, true, "nothing to see", "T"⟩).wrote = false ∧
      exitCode (fullRun ⟨none, true, true, "nothing to see", "T"⟩).outcome = 1 ∧
      (fullRun ⟨none, true, true, "nothing to see", "T"⟩).fileAfter =
        (⟨none, true, true, "nothing to see", "T"⟩ : Env).file) ∧
    exitCode (fullRun ⟨none, true, true, demoText2, "T"⟩).outcome = 0 :=
  ⟨c4_zero_markers_fatal.1 ⟨none, true, true, "nothing to see", "T"⟩ rfl,
   c4_zero_markers_fatal.2 ⟨none, true, true, demoText2, "T"⟩ rfl⟩

/-- C8: an absent snapshot file gives a null prior state and no error; a
present but unparsable file is a fatal error - the run aborts before the
browser is even launched, and nothing is written. -/
theorem c8_loader :
    (loadPreviousMetrics none = Except.ok none) ∧
    (∀ env : Env, env.file = none → (fullRun env).outcome ≠ Outcome.fatalLoad) ∧
    (∀ s : String, parseJson s = none →
      loadPreviousMetrics (some s) = Except.error ()) ∧
    (∀ (env : Env) (s : String), env.file = some s → parseJson s = none →
      fullRun env = ⟨Outcome.fatalLoad, false, false, false, env.file⟩) := by
  refine ⟨rfl, ?_, ?_, ?_⟩
  · intro env h
    simp only [fullRun, h, loadPreviousMetrics]
    split_ifs
    · simp
    · simp
    · split
      · simp
      · simp
      · simp
  · intro s h
    simp [loadPreviousMetrics, h]
  · intro env s he h
    simp only [fullRun, he, loadPreviousMetrics, h]

/-- C8 witness: loading `"not json"` aborts the run fatally; an absent
file does not. -/
theorem c8_witness :
    loadPreviousMetrics (some "not json") = Except.error () ∧
    fullRun ⟨some "not json", true, true, "", ""⟩ =
      ⟨Outcome.fatalLoad, false, false, false,
        (⟨some "not json", true, true, "", ""⟩ : Env).file⟩ ∧
    (fullRun ⟨none, true, true, "", ""⟩).outcome ≠ Outcome.fatalLoad :=
  ⟨c8_loader.2.2.1 "not json" rfl,
   c8_loader.2.2.2 ⟨some "not json", true, true, "", ""⟩ "not json" rfl rfl,
   c8_loader.2.1 ⟨none, true, true, "", ""⟩ rfl⟩

/-- C6 counterexample: a navigation timeout rejects the `goto` promise
after the browser was launched; there is no `try`/`finally`, so the
process dies with the browser session never closed. -/
theorem c6_counterexample :
    (fullRun ⟨none, false, true, "", ""⟩).launched = true ∧
    (fullRun ⟨none, false, true, "", ""⟩).browserClosed = false :=
  ⟨rfl, rfl⟩

/-- C6 amended: once the browser is launched, `browser.close()` runs
exactly on the zero-rows abort and on the two success paths (no-op and
write); the exception paths (navigation timeout, frame not found, parse
`TypeError`) end the process with the browser still open. -/
theorem c6_close_paths (env : Env) (_h : (fullRun env).launched = true) :
    (fullRun env).browserClosed = true ↔
      ((fullRun env).outcome = Outcome.noRows ∨
        (fullRun env).outcome = Outcome.success) := by
  clear _h
  simp only [fullRun]
  split
  · simp
  · split_ifs
    · simp
    · simp
    · split
      · simp
      · simp
      · split
        · split_ifs
          · simp
          · simp
        · simp

/-- C6 witness: on a successful 2-block run the browser is closed, and the
equivalence holds at that concrete run. -/
theorem c6_witness :
    (fullRun ⟨none, true, true, demoText2, "T"⟩).browserClosed = true ↔
      ((fullRun ⟨none, true, true, demoText2, "T"⟩).outcome = Outcome.noRows ∨
        (fullRun ⟨none, true, true, demoText2, "T"⟩).outcome =
          Outcome.success) :=
  c6_close_paths ⟨none, true, true, demoText2, "T"⟩ rfl

/-- C7 counterexample: an input with 2 blocks (a nonzero row count other
than 4) does not always end in a write: a stored snapshot whose
serialization equals the new one suppresses the write on the warning path
too. -/
theorem c7_counterexample :
    selectRowCount (toLines demoText2) = 2 ∧
    (fullRun ⟨some (stringifyPretty (metricsToJson
        (buildMetrics "T" [demoRow1, demoRow2]))),
      true, true, demoText2, "T"⟩).wrote = false :=
  ⟨rfl, rfl⟩

/-- C7 amended: a nonzero parsed row count other than 4 raises the warning
but the run continues to a successful end; rows 0-3 fill the four slots in
parse order, rows beyond position 4 are ignored, slots beyond the row
count stay null, and the snapshot is then written exactly when the change
detector finds no serialization-equal prior snapshot. -/
theorem c7_row_count_warning (env : Env) (prev : Option JVal)
    (r : WeeklyRow) (rs : List WeeklyRow)
    (hload : loadPreviousMetrics env.file = Except.ok prev)
    (hgoto : env.gotoOk = true) (hframe : env.frameFound = true)
    (hparse : parseRows (toLines env.text) = some (r :: rs))
    (hcount : (r :: rs).length ≠ 4) :
    warnsRowCount (r :: rs) = true ∧
    (fullRun env).outcome = Outcome.success ∧
    (buildMetrics env.ts (r :: rs)).this_week = some r ∧
    (buildMetrics env.ts (r :: rs)).last_week = rs[0]? ∧
    (buildMetrics env.ts (r :: rs)).two_weeks_ago = rs[1]? ∧
    (buildMetrics env.ts (r :: rs)).three_weeks_ago = rs[2]? ∧
    buildMetrics env.ts (r :: rs) = buildMetrics env.ts ((r :: rs).take 4) ∧
    ((∀ p, prev = some p → stringifyCompact p ≠
        stringifyCompact (metricsToJson (buildMetrics env.ts (r :: rs)))) →
      (fullRun env).wrote = true ∧
      (fullRun env).fileAfter =
        some (stringifyPretty (metricsToJson (buildMetrics env.ts (r :: rs))))) := by
  have hc' : rs.length + 1 ≠ 4 := by simpa using hcount
  have hrunN : prev = none → fullRun env =
      ⟨Outcome.success, true, true, true,
        some (stringifyPretty (metricsToJson (buildMetrics env.ts (r :: rs))))⟩ := by
    intro h
    subst h
    simp only [fullRun, hload, hgoto, hframe, hparse]
    simp
  have hrunS : ∀ p, prev = some p → fullRun env =
      (if stringifyCompact p =
          stringifyCompact (metricsToJson (buildMetrics env.ts (r :: rs))) then
        ⟨Outcome.success, true, true, false, env.file⟩
      else
        ⟨Outcome.success, true, true, true,
          some (stringifyPretty (metricsToJson
            (buildMetrics env.ts (r :: rs))))⟩) := by
    intro p h
    subst h
    simp only [fullRun, hload, hgoto, hframe, hparse]
    simp
  refine ⟨by simp [warnsRowCount]; omega, ?_, by simp [buildMetrics],
    by simp [buildMetrics], by simp [buildMetrics], by simp [buildMetrics],
    ?_, ?_⟩
  · rcases prev with _ | p
    · rw [hrunN rfl]
    · rw [hrunS p rfl]
      split_ifs <;> rfl
  · simp only [buildMetrics]
    simp [List.getElem?_take]
  · intro hne
    rcases prev with _ | p
    · rw [hrunN rfl]
      exact ⟨rfl, rfl⟩
    · rw [hrunS p rfl, if_neg (hne p rfl)]
      exact ⟨rfl, rfl⟩

/-- C7 witness: a fresh 2-block run warns, fills two slots in order,
leaves the last two null, and still writes. -/
theorem c7_witness :
    warnsRowCount (demoRow1 :: [demoRow2]) = true ∧
    (fullRun ⟨none, true, true, demoText2, "T2"⟩).outcome = Outcome.success ∧
    (buildMetrics "T2" (demoRow1 :: [demoRow2])).this_week = some demoRow1 ∧
    (buildMetrics "T2" (demoRow1 :: [demoRow2])).last_week = [demoRow2][0]? ∧
    (buildMetrics "T2" (demoRow1 :: [demoRow2])).two_weeks_ago = [demoRow2][1]? ∧
    (buildMetrics "T2" (demoRow1 :: [demoRow2])).three_weeks_ago = [demoRow2][2]? ∧
    buildMetrics "T2" (demoRow1 :: [demoRow2]) =
      buildMetrics "T2" ((demoRow1 :: [demoRow2]).take 4) ∧
    ((∀ p, (none : Option JVal) = some p → stringifyCompact p ≠
        stringifyCompact (metricsToJson (buildMetrics "T2" (demoRow1 :: [demoRow2])))) →
      (fullRun ⟨none, true, true, demoText2, "T2"⟩).wrote = true ∧
      (fullRun ⟨none, true, true, demoText2, "T2"⟩).fileAfter =
        some (stringifyPretty (metricsToJson
          (buildMetrics "T2" (demoRow1 :: [demoRow2]))))) :=
  c7_row_count_warning ⟨none, true, true, demoText2, "T2"⟩ none demoRow1
    [demoRow2] rfl rfl rfl (by rfl) (by decide)

/-- C1 counterexample: running the pipeline twice on the same text with a
fresh timestamp performs a second file write - `updated_at` participates
in the serialization comparison, so the snapshots never compare equal. -/
theorem c1_counterexample :
    (fullRun ⟨none, true, true, demoText2, "TS1"⟩).wrote = true ∧
    (fullRun ⟨(fullRun ⟨none, true, true, demoText2, "TS1"⟩).fileAfter,
      true, true, demoText2, "TS2"⟩).wrote = true :=
  ⟨rfl, rfl⟩

/-- C1 amended: when a stored snapshot exists and the newly built snapshot
serializes (timestamp included) to exactly the prior's serialization, the
run skips the write and ends successfully; a second run over identical
text skips the write only when its timestamp also coincides. -/
theorem c1_skip_on_equal (env : Env) (p : JVal) (r : WeeklyRow)
    (rs : List WeeklyRow)
    (hload : loadPreviousMetrics env.file = Except.ok (some p))
    (hgoto : env.gotoOk = true) (hframe : env.frameFound = true)
    (hparse : parseRows (toLines env.text) = some (r :: rs))
    (heq : stringifyCompact p =
      stringifyCompact (metricsToJson (buildMetrics env.ts (r :: rs)))) :
    fullRun env = ⟨Outcome.success, true, true, false, env.file⟩ := by
  simp only [fullRun, hload, hgoto, hframe, hparse]
  simp [heq]

/-- C1 witness: re-running on the stored snapshot's own serialization with
the same timestamp ends successfully with no write. -/
theorem c1_witness :
    fullRun ⟨some (stringifyPretty (metricsToJson
        (buildMetrics "TS1" [demoRow1, demoRow2]))),
      true, true, demoText2, "TS1"⟩ =
    ⟨Outcome.success, true, true, false,
      some (stringifyPretty (metricsToJson
        (buildMetrics "TS1" [demoRow1, demoRow2])))⟩ :=
  c1_skip_on_equal
    ⟨some (stringifyPretty (metricsToJson
      (buildMetrics "TS1" [demoRow1, demoRow2]))), true, true, demoText2, "TS1"⟩
    (metricsToJson (buildMetrics "TS1" [demoRow1, demoRow2]))
    demoRow1 [demoRow2] (by rfl) rfl rfl (by rfl) (by rfl)

/-- C9: writing a snapshot as pretty-printed JSON and loading the file
back yields a value structurally equal to the in-memory snapshot,
`updated_at` as written included. -/
theorem c9_round_trip (m : Metrics) :
    parseJson (stringifyPretty (metricsToJson m)) = some (metricsToJson m) ∧
    loadPreviousMetrics (some (stringifyPretty (metricsToJson m))) =
      Except.ok (some (metricsToJson m)) := by
  refine ⟨parseJson_stringifyPretty m, ?_⟩
  simp [loadPreviousMetrics, parseJson_stringifyPretty m]

end SheepScrape
